import Mathlib

/-!
Verification of the flight-log data pipeline in `src/src/App.tsx`:
record normalization (`processFlightData`), statistics aggregation
(`calculateStats`), and the upload pipeline (`handleFileUpload`).

Modelling conventions: JavaScript numbers produced by this code are exact
integers (results of `parseInt`, counters, minute sums), so they are
modelled as `Int`/`Nat`.  Cell values are text (the sheet is decoded with
`raw: false`); an absent cell (`undefined`) is `none`.  The external
`Date` collaborator (`new Date(string)` / `toISOString`) is modelled for
ISO `YYYY-MM-DD` calendar-date inputs; any other text counts as an
invalid date.  `parseInt` / `Number` are modelled on their base-10
integer fragment (no hex prefixes, no fractional text), which covers
every value exercised here.
-/

namespace FlightApp

/-- The digit character for `d < 10`, as in JavaScript number→string. -/
def digitChar (d : Nat) : Char := Char.ofNat (48 + d)

/-- Fuel-driven digit extraction (structural recursion so that concrete
instances reduce inside the kernel); `fuel > n` suffices. -/
def digitsLEAux : Nat → Nat → List Char
  | 0, _ => []
  | fuel + 1, n =>
    if n < 10 then [digitChar n]
    else digitChar (n % 10) :: digitsLEAux fuel (n / 10)

/-- Decimal digits of `n`, least significant first (never empty);
the building block of JavaScript's number→string conversion. -/
def digitsLE (n : Nat) : List Char := digitsLEAux (n + 1) n

/-- JavaScript `String(n)` for a natural number. -/
def natToString (n : Nat) : String := String.mk (digitsLE n).reverse

/-- Numeric value of a digit character. -/
def digitVal (c : Char) : Nat := c.toNat - 48

/-- Base-10 value of a digit string (big-endian), as a left fold. -/
def parseNatList (l : List Char) : Nat := l.foldl (fun a c => a * 10 + digitVal c) 0

/-- JavaScript `s.padStart(n, '0')`. -/
def padStart (n : Nat) (s : String) : String :=
  String.mk (List.replicate (n - s.length) '0' ++ s.toList)

/-- Longest digit prefix of `cs`, parsed; `none` when there is no digit. -/
def digitsPrefix (cs : List Char) : Option Nat :=
  let ds := cs.takeWhile Char.isDigit
  if ds.isEmpty then none else some (parseNatList ds)

/-- Model of JavaScript `parseInt(s)` (base-10 fragment): skip leading
whitespace, optional sign, longest digit prefix; `none` is `NaN`. -/
def parseIntJS (s : String) : Option Int :=
  let cs := s.toList.dropWhile Char.isWhitespace
  match cs with
  | '-' :: rest => (digitsPrefix rest).map (fun n => -Int.ofNat n)
  | '+' :: rest => (digitsPrefix rest).map Int.ofNat
  | _ => (digitsPrefix cs).map Int.ofNat

/-- JavaScript `s.trim()` over the character list. -/
def trimChars (l : List Char) : List Char :=
  ((l.dropWhile Char.isWhitespace).reverse.dropWhile Char.isWhitespace).reverse

/-- Model of JavaScript `Number(s)` (integer fragment): a blank string is
`0`, optionally signed all-digit text is its value, and `none` is `NaN`. -/
def jsNumber (s : String) : Option Int :=
  let cs := trimChars s.toList
  match cs with
  | [] => some 0
  | '-' :: rest =>
    if !rest.isEmpty && rest.all Char.isDigit then some (-Int.ofNat (parseNatList rest)) else none
  | '+' :: rest =>
    if !rest.isEmpty && rest.all Char.isDigit then some (Int.ofNat (parseNatList rest)) else none
  | _ => if cs.all Char.isDigit then some (Int.ofNat (parseNatList cs)) else none

/-- JavaScript `s.split(sep)` over the character list (never empty). -/
def splitChar (sep : Char) : List Char → List (List Char)
  | [] => [[]]
  | c :: cs =>
    if c = sep then [] :: splitChar sep cs
    else
      match splitChar sep cs with
      | [] => [[c]]
      | p :: ps => (c :: p) :: ps

/-- `parseTimeString` from the source: split an `"H:M"` string on `':'`,
`Number` each part, and replace `NaN` parts by `0`. -/
def parseTimeString (timeStr : String) : Int × Int :=
  if timeStr = "" then (0, 0)
  else
    let parts := splitChar ':' timeStr.toList
    let hours := match parts.head? with
      | some p => (jsNumber (String.mk p)).getD 0
      | none => 0
    let minutes := match parts.drop 1 |>.head? with
      | some p => (jsNumber (String.mk p)).getD 0
      | none => 0
    (hours, minutes)

/-- A cell of the row dictionary: `none` models `undefined`. -/
abbrev Cell := Option String

/-- The row dictionary built by the upload handler (a JS object). -/
abbrev Row := List (String × Cell)

/-- `row[k]` on the row dictionary. -/
def getCell (row : Row) (k : String) : Option String :=
  match List.lookup k row with
  | some v => v
  | none => none

/-- JS `row[k] || d`: the cell's text when present and non-empty, else `d`. -/
def cellOr (row : Row) (k d : String) : String :=
  match getCell row k with
  | some s => if s = "" then d else s
  | none => d

/-- `parseInt((row[k] || '0').toString()) || 0` from the source. -/
def pInt (row : Row) (k : String) : Int :=
  (parseIntJS (cellOr row k "0")).getD 0

structure FlightRecord where
  ser : String
  date : String
  «from» : String
  «to» : String
  takeoffHours : Int
  takeoffMinutes : Int
  landingHours : Int
  landingMinutes : Int
  flightHours : Int
  flightMinutes : Int
  cycles : Int
  totalFlightHours : Int
  totalFlightMinutes : Int
  totalCycles : Int
  tlbNumber : String
  lastDate : String
  totalHours : Int
  totalMinutes : Int
  totalCyclesSum : Int
  hoursPerMonth : Int
  cyclesPerMonth : Int
deriving DecidableEq, Repr

/-- The body of the `data.map` in `processFlightData` (`index` 0-based). -/
def mkRecord (index : Nat) (row : Row) : FlightRecord :=
  let totalTimeStr := (getCell row "Total F\\H").getD ""
  let tf : Int × Int :=
    if ':' ∈ totalTimeStr.toList then parseTimeString totalTimeStr
    else (pInt row "TOTAL HRS", 0)
  { ser := cellOr row "Ser" (natToString (index + 1))
    date := cellOr row "Date" ""
    «from» := cellOr row "From" ""
    «to» := cellOr row "To" ""
    takeoffHours := pInt row "T\\O hrs"
    takeoffMinutes := pInt row "T\\O min"
    landingHours := pInt row "Landing hrs"
    landingMinutes := pInt row "Landing min"
    flightHours := pInt row "F\\H hrs"
    flightMinutes := pInt row "F\\H min"
    cycles := pInt row "Cyc."
    totalFlightHours := tf.1
    totalFlightMinutes := tf.2
    totalCycles := pInt row "Total Cyc"
    tlbNumber := cellOr row "TLB #" ""
    lastDate := cellOr row "Last Date" ""
    totalHours := pInt row "TOTAL HRS"
    totalMinutes := pInt row "TOTAL MIN"
    totalCyclesSum := pInt row "TOTAL CYC"
    hoursPerMonth := pInt row "HRS/MOUNTH"
    cyclesPerMonth := pInt row "CYC/MOUNTH" }

/-- `data.map((row, index) => ...)` starting at index `i`. -/
def mapWithIndex (i : Nat) : List Row → List FlightRecord
  | [] => []
  | row :: rest => mkRecord i row :: mapWithIndex (i + 1) rest

/-- `processFlightData` from the source: build one record per row, then
filter on JS truthiness of `ser` and `date`. -/
def processFlightData (data : List Row) : List FlightRecord :=
  (mapWithIndex 0 data).filter (fun r => !(r.ser == "") && !(r.date == ""))

/-- `Math.max(hours * 60 + minutes, 0)`: `parseTimeToMinutes` from the source. -/
def parseTimeToMinutes (hours minutes : Int) : Nat :=
  (hours * 60 + minutes).toNat

/-- `formatMinutesToTime` from the source:
`"{floor(m/60)}:{(m mod 60).padStart(2,'0')}"`. -/
def formatMinutesToTime (totalMinutes : Nat) : String :=
  natToString (totalMinutes / 60) ++ ":" ++ padStart 2 (natToString (totalMinutes % 60))

/-- Gregorian leap-year rule. -/
def leapYear (y : Nat) : Bool :=
  y % 4 == 0 && (y % 100 != 0 || y % 400 == 0)

def daysInMonth (y m : Nat) : Nat :=
  if m == 2 then (if leapYear y then 29 else 28)
  else if m == 4 || m == 6 || m == 9 || m == 11 then 30
  else 31

/-- Modelled external collaborator: the parsing half of JavaScript
`new Date(s)`, restricted to ISO `YYYY-MM-DD` calendar dates.  `none`
models an Invalid Date (whose `getTime()` is `NaN` and whose
`toISOString()` throws). -/
def parseCivil (s : String) : Option (Nat × Nat × Nat) :=
  match splitChar '-' s.toList with
  | [ys, ms, ds] =>
    if ys.length = 4 && ms.length = 2 && ds.length = 2 &&
        ys.all Char.isDigit && ms.all Char.isDigit && ds.all Char.isDigit then
      let y := parseNatList ys
      let m := parseNatList ms
      let d := parseNatList ds
      if 1 ≤ m && m ≤ 12 && 1 ≤ d && d ≤ daysInMonth y m then some (y, m, d) else none
    else none
  | _ => none

/-- Days from the Unix epoch of a civil date (Hinnant's algorithm,
matching JavaScript's proleptic-Gregorian UTC timeline). -/
def epochDay (c : Nat × Nat × Nat) : Int :=
  let y : Int := if c.2.1 ≤ 2 then (c.1 : Int) - 1 else (c.1 : Int)
  let era : Int := (if 0 ≤ y then y else y - 399) / 400
  let yoe : Int := y - era * 400
  let mp : Int := ((c.2.1 : Int) + 9) % 12
  let doy : Int := (153 * mp + 2) / 5 + (c.2.2 : Int) - 1
  let doe : Int := yoe * 365 + yoe / 4 - yoe / 100 + doy
  era * 146097 + doe - 719468

/-- `getTime()` of the modelled date: milliseconds from the epoch. -/
def epochMs (c : Nat × Nat × Nat) : Int := epochDay c * 86400000

/-- `toISOString().substring(0, 7)` of the modelled date: `"YYYY-MM"`. -/
def monthKey (c : Nat × Nat × Nat) : String :=
  padStart 4 (natToString c.1) ++ "-" ++ padStart 2 (natToString c.2.1)

structure MonthData where
  hours : Nat
  flights : Nat
  cycles : Int
deriving DecidableEq, Repr

structure RouteData where
  count : Nat
  totalTime : Nat
deriving DecidableEq, Repr

structure FlightStats where
  totalFlightTime : String
  totalCycles : Int
  totalFlights : Nat
  averageFlightTime : String
  mostFrequentRoute : String
  totalDays : Int
  /-- `parseFloat((totalFlights / totalDays).toFixed(2))`, kept in exact
  hundredths (`23` means `0.23`) so the model stays in integers. -/
  averageFlightsPerDay : Nat
  monthlyStats : List (String × MonthData)
  routeStats : List (String × RouteData)
deriving DecidableEq, Repr

/-- The route grouping key `"{from}-{to}"`. -/
def routeKey (r : FlightRecord) : String := r.«from» ++ "-" ++ r.«to»

/-- One step of the `routeStats` accumulation: create-or-update the entry
for `k` in place (JS object insertion order is preserved). -/
def bumpRoute (l : List (String × RouteData)) (k : String) (t : Nat) :
    List (String × RouteData) :=
  match l with
  | [] => [(k, ⟨1, t⟩)]
  | (k', v) :: rest =>
    if k' = k then (k', ⟨v.count + 1, v.totalTime + t⟩) :: rest
    else (k', v) :: bumpRoute rest k t

/-- The `routeStats` object of `calculateStats`, as an insertion-ordered
association list. -/
def buildRoutes (data : List FlightRecord) : List (String × RouteData) :=
  data.foldl
    (fun acc r => bumpRoute acc (routeKey r) (parseTimeToMinutes r.totalFlightHours r.totalFlightMinutes))
    []

/-- One step of the `monthlyStats` accumulation. -/
def bumpMonth (l : List (String × MonthData)) (k : String) (t : Nat) (cyc : Int) :
    List (String × MonthData) :=
  match l with
  | [] => [(k, ⟨t, 1, cyc⟩)]
  | (k', v) :: rest =>
    if k' = k then (k', ⟨v.hours + t, v.flights + 1, v.cycles + cyc⟩) :: rest
    else (k', v) :: bumpMonth rest k t cyc

/-- The `monthlyStats` loop of `calculateStats`.  A record with a truthy
but unparseable date reaches `new Date(...).toISOString()`, which throws
`RangeError: Invalid time value`; the exception aborts the whole
computation, modelled by `Except.error`. -/
def buildMonthly (data : List FlightRecord) : Except String (List (String × MonthData)) :=
  data.foldlM
    (fun acc r =>
      if r.date = "" then Except.ok acc
      else
        match parseCivil r.date with
        | none => Except.error "Invalid time value"
        | some c =>
          Except.ok
            (bumpMonth acc (monthKey c) (parseTimeToMinutes r.totalFlightHours r.totalFlightMinutes)
              r.totalCycles))
    []

/-- The comparator `(a, b) => b.count - a.count` handed to the stable JS
sort: `a` may stay before `b` exactly when `b.count ≤ a.count`. -/
def routeLe (a b : String × RouteData) : Bool := decide (b.2.count ≤ a.2.count)

/-- Insert `a` in front of the first element it may precede. -/
def insertSorted (le : α → α → Bool) (a : α) : List α → List α
  | [] => [a]
  | b :: bs => if le a b then a :: b :: bs else b :: insertSorted le a bs

/-- Model of JavaScript `Array.prototype.sort(cmp)` for a consistent
comparator: the sort is stable (ES2019), and under a total preorder the
stable order is unique, so stable insertion sort produces exactly the
array the JS engine's stable merge sort produces. -/
def jsSort (le : α → α → Bool) : List α → List α
  | [] => []
  | a :: as => insertSorted le a (jsSort le as)

/-- `Math.ceil(p / q)` for integers, `q > 0`. -/
def jsCeilDiv (p q : Int) : Int := -((-p).fdiv q)

/-- `Math.round(a / b)` (round half up) for naturals, `b > 0`. -/
def roundHalfUpDiv (a b : Nat) : Nat := (2 * a + b) / (2 * b)

/-- The zero-valued statistics returned for an empty record list. -/
def zeroStats : FlightStats :=
  { totalFlightTime := "0:00"
    totalCycles := 0
    totalFlights := 0
    averageFlightTime := "0:00"
    mostFrequentRoute := "N/A"
    totalDays := 0
    averageFlightsPerDay := 0
    monthlyStats := []
    routeStats := [] }

/-- The pure part of `calculateStats` on a non-empty record list, once
the monthly loop has produced its buckets (the monthly loop is the only
part of the computation that can throw). -/
def mainStats (data : List FlightRecord)
    (monthlyStats : List (String × MonthData)) : FlightStats :=
  let totalMinutes :=
    data.foldl (fun s r => s + parseTimeToMinutes r.totalFlightHours r.totalFlightMinutes) 0
  let totalCycles := data.foldl (fun s r => s + r.totalCycles) (0 : Int)
  let routeStats := buildRoutes data
  let mostFrequentRoute := (((jsSort routeLe routeStats).head?).map Prod.fst).getD "N/A"
  let dates := data.filterMap (fun r => (parseCivil r.date).map epochMs)
  let totalDays : Int :=
    match dates with
    | [] => 0
    | t :: ts => jsCeilDiv (ts.foldl max t - ts.foldl min t) 86400000 + 1
  { totalFlightTime := formatMinutesToTime totalMinutes
    totalCycles := totalCycles
    totalFlights := data.length
    averageFlightTime := formatMinutesToTime (roundHalfUpDiv totalMinutes data.length)
    mostFrequentRoute := mostFrequentRoute
    totalDays := totalDays
    averageFlightsPerDay :=
      if 0 < totalDays then roundHalfUpDiv (100 * data.length) totalDays.toNat else 0
    monthlyStats := monthlyStats
    routeStats := routeStats }

/-- `calculateStats` from the source.  The `Except` layer carries the
`RangeError` thrown by `toISOString` on an invalid (non-empty,
unparseable) date in the monthly loop. -/
def calculateStats (data : List FlightRecord) : Except String FlightStats :=
  if data = [] then .ok zeroStats
  else
    match buildMonthly data with
    | .error e => .error e
    | .ok monthlyStats => .ok (mainStats data monthlyStats)

/-- Header canonicalization from the upload handler:
`header.trim().replace(/\\|[\s\n]+/g, '')` deletes every backslash and
every whitespace character. -/
def canonKey (h : String) : String :=
  String.mk ((trimChars h.toList).filter (fun c => !(c == '\\' || c.isWhitespace)))

/-- JS object assignment `record[k] = v`: update in place or append. -/
def setCell (l : Row) (k : String) (v : Cell) : Row :=
  match l with
  | [] => [(k, v)]
  | (k', v') :: rest => if k' = k then (k, v) :: rest else (k', v') :: setCell rest k v

/-- The `headers.forEach((header, index) => record[canon] = row[index])`
loop building the row dictionary. -/
def buildDict : Nat → List String → List String → Row → Row
  | _, [], _, acc => acc
  | i, h :: hs, row, acc => buildDict (i + 1) hs row (setCell acc (canonKey h) row[i]?)

def rowDict (headers row : List String) : Row := buildDict 0 headers row []

/-- The per-row normalization of the upload handler:
`rows.map(row => processFlightData([record])[0]).filter(r => r)` — each
data row is passed to `processFlightData` as a singleton list. -/
def normalizeRows (headers : List String) (rows : List (List String)) : List FlightRecord :=
  rows.filterMap (fun row => (processFlightData [rowDict headers row]).head?)

def missingHeadersMsg : String :=
  "Missing required headers (e.g., Date, From, To, Total F\\H, Total Cyc)"

def noValidDataMsg : String := "No valid flight data found in the file"

def requiredHeaders : List String := ["Date", "From", "To", "Total F\\H", "Total Cyc"]

/-- The literal required-header check of the upload handler. -/
def requiredOk (headers : List String) : Bool :=
  headers.contains "Date" && headers.contains "From" && headers.contains "To" &&
    headers.contains "Total F\\H" && headers.contains "Total Cyc"

/-- The `try` body of the upload handler after decoding: header check,
per-row normalization, empty-result check, aggregation. -/
def processUpload (headers : List String) (rows : List (List String)) :
    Except String (List FlightRecord × FlightStats) :=
  if !requiredOk headers then .error missingHeadersMsg
  else
    let processedData := normalizeRows headers rows
    if processedData = [] then .error noValidDataMsg
    else (calculateStats processedData).map (fun s => (processedData, s))

/-- The component state relevant to the pipeline: the current record set
and statistics. -/
structure AppState where
  flightData : List FlightRecord
  stats : Option FlightStats
deriving DecidableEq, Repr

/-- `handleFileUpload` from the source, as a state transition.  `decoded`
is the result of the external workbook decode; any thrown error lands in
the `catch` block, which only alerts and leaves the state untouched.
`setFlightData`/`setStats` run together after everything succeeded. -/
def handleFileUpload (st : AppState)
    (decoded : Except String (List String × List (List String))) : AppState :=
  match decoded with
  | .error _ => st
  | .ok (headers, rows) =>
    match processUpload headers rows with
    | .error _ => st
    | .ok (recs, stats) => { flightData := recs, stats := some stats }

/-! ### Spec-side definitions (refinement counterparts, from the spec's words) -/

/-- Follows the spec's words (§4.2): `minutesOf(record) =
max(totalFlightHours * 60 + totalFlightMinutes, 0)`. -/
def minutesOf (r : FlightRecord) : Nat :=
  parseTimeToMinutes r.totalFlightHours r.totalFlightMinutes

/-- Split a character list at its first colon. -/
def splitAtFirstColon : List Char → Option (List Char × List Char)
  | [] => none
  | c :: cs =>
    if c = ':' then some ([], cs)
    else (splitAtFirstColon cs).map (fun p => (c :: p.1, p.2))

/-- Follows the spec's words (§8, `parseTimeBack`): split a formatted
`"H:MM"` string at its first colon and read both parts back as minutes. -/
def parseTimeBack (s : String) : Nat :=
  match splitAtFirstColon s.toList with
  | some (h, m) => parseNatList h * 60 + parseNatList m
  | none => 0

/-- Follows the spec's words (§4.2): the first route key, in insertion
order, whose count no other route exceeds. -/
def firstMaxRoute (l : List (String × RouteData)) : Option String :=
  (l.find? (fun p => l.all (fun q => decide (q.2.count ≤ p.2.count)))).map Prod.fst

/-- Follows the spec's words (§4.2): `ceil((max(date) - min(date)) in
days) + 1` over the records with a parseable date, `0` when there are
none.  Parsed dates are whole days, so the ceiling is exact. -/
def totalDaysSpec (data : List FlightRecord) : Int :=
  match data.filterMap (fun r => (parseCivil r.date).map epochDay) with
  | [] => 0
  | t :: ts => (ts.foldl max t - ts.foldl min t) + 1

/-- `startsWithChars hay needle`: does `hay` begin with `needle`? -/
def startsWithChars : List Char → List Char → Bool
  | _, [] => true
  | [], _ :: _ => false
  | c :: cs, d :: ds => c == d && startsWithChars cs ds

/-- `substringOf needle hay`: does `needle` occur contiguously in `hay`? -/
def substringOf (needle hay : List Char) : Bool :=
  match hay with
  | [] => needle.isEmpty
  | _ :: t => startsWithChars hay needle || substringOf needle t

/-! ### Concrete inputs used by individual claims -/

/-- A normalized record whose (truthy) date is not a parseable date. -/
def badDateRecord : FlightRecord :=
  mkRecord 0 [("Ser", some "1"), ("Date", some "nonsense-date")]

/-- A header row holding every required header plus `Ser` and `TOTAL HRS`. -/
def uploadHeaders : List String :=
  ["Ser", "Date", "From", "To", "Total F\\H", "Total Cyc", "TOTAL HRS"]

/-- A row dictionary as `processFlightData` itself expects its keys
(raw, uncanonicalized), with a colon-form total time. -/
def rawRowColon : Row :=
  [("Ser", some "1"), ("Date", some "2024-01-15"), ("Total F\\H", some "3:30"),
    ("TOTAL HRS", some "10")]

/-- As `rawRowColon` but with an empty `Total F\H` cell. -/
def rawRowPlain : Row :=
  [("Ser", some "1"), ("Date", some "2024-01-15"), ("Total F\\H", some ""),
    ("TOTAL HRS", some "10")]

/-- A row whose cycles cell holds a negative integer. -/
def negCycRow : Row :=
  [("Ser", some "1"), ("Date", some "2024-01-01"), ("Cyc.", some "-5")]

/-- No minus sign occurs before the first alphanumeric character of the
text.  JavaScript `parseInt`/`Number` produce a negative value only when
a minus sign is preceded by nothing but whitespace, and whitespace is
never alphanumeric, so text satisfying this check parses non-negatively
(or not at all) in JavaScript and in the model alike. -/
def noEarlyMinus : List Char → Bool
  | [] => true
  | c :: rest => if c = '-' then false else if c.isAlphanum then true else noEarlyMinus rest

/-- Neither the cell nor any of its colon-separated components has a
minus sign before its first alphanumeric character. -/
def cellNoMinus (s : String) : Bool :=
  noEarlyMinus s.toList && (splitChar ':' s.toList).all (fun p => noEarlyMinus p)

/-- Every cell of the row satisfies `cellNoMinus`. -/
def rowCellsNoMinus (row : Row) : Bool :=
  row.all (fun p => match p.2 with | some s => cellNoMinus s | none => true)

/-- The integer extraction of column `k` finds no usable text: the cell
is absent, or its text fails to parse as an integer. -/
def cellFails (row : Row) (k : String) : Prop :=
  getCell row k = none ∨ parseIntJS (cellOr row k "0") = none

/-- A row whose cycles cell fails integer parsing. -/
def failRow : Row :=
  [("Ser", some "1"), ("Date", some "2024-01-01"), ("Cyc.", some "abc")]

/-- A valid record with the given identity, total time and cycles. -/
def mkFlight (ser date f t : String) (h m cyc : Int) : FlightRecord :=
  { ser := ser, date := date, «from» := f, «to» := t,
    takeoffHours := 0, takeoffMinutes := 0, landingHours := 0, landingMinutes := 0,
    flightHours := 0, flightMinutes := 0, cycles := 0,
    totalFlightHours := h, totalFlightMinutes := m, totalCycles := cyc,
    tlbNumber := "", lastDate := "", totalHours := 0, totalMinutes := 0,
    totalCyclesSum := 0, hoursPerMonth := 0, cyclesPerMonth := 0 }

/-- Four records routed A-B, A-B, C-D, C-D in that order. -/
def tieAB : List FlightRecord :=
  [mkFlight "1" "2024-01-15" "A" "B" 1 0 1, mkFlight "2" "2024-01-15" "A" "B" 1 0 1,
    mkFlight "3" "2024-01-15" "C" "D" 1 0 1, mkFlight "4" "2024-01-15" "C" "D" 1 0 1]

/-- Four records routed C-D, C-D, A-B, A-B in that order. -/
def tieCD : List FlightRecord :=
  [mkFlight "1" "2024-01-15" "C" "D" 1 0 1, mkFlight "2" "2024-01-15" "C" "D" 1 0 1,
    mkFlight "3" "2024-01-15" "A" "B" 1 0 1, mkFlight "4" "2024-01-15" "A" "B" 1 0 1]

/-- Two records dated 2024-01-01 and 2024-01-10. -/
def spanRecords : List FlightRecord :=
  [mkFlight "1" "2024-01-01" "A" "B" 1 0 1, mkFlight "2" "2024-01-10" "A" "B" 1 0 1]

/-- Two records totalling 125 minutes of flight time. -/
def minuteRecords : List FlightRecord :=
  [mkFlight "1" "2024-01-15" "A" "B" 1 5 2, mkFlight "2" "2024-01-15" "A" "B" 1 0 3]

/-! ### Helper lemmas -/

theorem digitsLE_ne_nil (n : Nat) : digitsLE n ≠ [] := by
  unfold digitsLE digitsLEAux
  split <;> simp

theorem natToString_ne_empty (n : Nat) : natToString n ≠ "" := by
  intro h
  have h2 : (digitsLE n).reverse = [] := congrArg String.data h
  rw [List.reverse_eq_nil_iff] at h2
  exact digitsLE_ne_nil n h2

theorem mkRecord_ser_ne_empty (i : Nat) (row : Row) : (mkRecord i row).ser ≠ "" := by
  show cellOr row "Ser" (natToString (i + 1)) ≠ ""
  unfold cellOr
  rcases hg : getCell row "Ser" with - | s <;> simp only [hg]
  · exact natToString_ne_empty _
  · by_cases hs : s = ""
    · simp only [if_pos hs]; exact natToString_ne_empty _
    · simp only [if_neg hs]; exact hs

theorem mem_mapWithIndex {r : FlightRecord} :
    ∀ {i : Nat} {rows : List Row}, r ∈ mapWithIndex i rows →
      ∃ j row, row ∈ rows ∧ r = mkRecord j row
  | _, [], h => by simp [mapWithIndex] at h
  | i, row :: rest, h => by
    rw [mapWithIndex] at h
    rcases List.mem_cons.mp h with h1 | h2
    · exact ⟨i, row, List.mem_cons_self _ _, h1⟩
    · obtain ⟨j, row', hm, he⟩ := mem_mapWithIndex h2
      exact ⟨j, row', List.mem_cons_of_mem _ hm, he⟩

/-! ### Claim theorems -/

/-- C1: the claim fails on the code.  A normalized record whose
(non-empty) date does not parse reaches `toISOString()` on an Invalid
Date inside the monthly-stats loop, so `calculateStats` throws instead of
silently excluding the record and returning a `FlightStats`. -/
theorem c1_unparseable_date_aborts_aggregation :
    badDateRecord.ser ≠ "" ∧ badDateRecord.date = "nonsense-date" ∧
      parseCivil badDateRecord.date = none ∧
      calculateStats [badDateRecord] = Except.error "Invalid time value" :=
  ⟨by decide, rfl, rfl, rfl⟩

/-- C2: the claim fails on the code.  Through the full pipeline the row
dictionary only has canonicalized keys (no backslashes, no whitespace),
so the lookups of `'Total F\H'` and `'TOTAL HRS'` in `processFlightData`
never hit and both total-time fields are always `0` — here on the claim's
own example (`Total F\H = "3:30"`, `TOTAL HRS = "10"`).  On a raw-keyed
row, `processFlightData` itself does implement the dual-source rule. -/
theorem c2_total_time_sources_unreachable_through_pipeline :
    (normalizeRows uploadHeaders [["7", "2024-01-15", "A", "B", "3:30", "5", "10"]]).map
        (fun r => (r.totalFlightHours, r.totalFlightMinutes)) = [(0, 0)] ∧
      (processFlightData [rawRowColon]).map
        (fun r => (r.totalFlightHours, r.totalFlightMinutes)) = [(3, 30)] ∧
      (processFlightData [rawRowPlain]).map
        (fun r => (r.totalFlightHours, r.totalFlightMinutes)) = [(10, 0)] :=
  ⟨by decide, by decide, by decide⟩

/-- C3: the claim fails on the code.  The upload handler hands each data
row to `processFlightData` as a singleton list, so the positional serial
fallback is `${0 + 1}` for every row: the second row with a blank serial
gets `"1"`, not `"2"`. -/
theorem c3_serial_fallback_always_one :
    (normalizeRows uploadHeaders
        [["", "2024-01-15", "A", "B", "1:00", "1", ""],
          ["", "2024-01-16", "C", "D", "2:00", "2", ""]]).map (fun r => r.ser) =
      ["1", "1"] := by decide

/-- C7: when any required header is missing, the upload fails before row
processing with the fixed validation message, which names every required
header (so in particular each missing one). -/
theorem c7_upload_rejected_on_missing_headers (headers : List String)
    (rows : List (List String)) (h : ∃ req ∈ requiredHeaders, req ∉ headers) :
    processUpload headers rows = .error missingHeadersMsg ∧
      requiredHeaders.all (fun req => substringOf req.toList missingHeadersMsg.toList) = true := by
  refine ⟨?_, by decide⟩
  obtain ⟨req, hreq, hnot⟩ := h
  have hok : requiredOk headers = false := by
    simp only [requiredHeaders, List.mem_cons, List.not_mem_nil, or_false] at hreq
    rcases hreq with rfl | rfl | rfl | rfl | rfl <;>
      simp [requiredOk, List.contains, hnot]
  simp [processUpload, hok]

/-- Witness for C7 at a concrete header row lacking `Total Cyc`. -/
theorem c7_upload_rejected_on_missing_headers_witness :
    processUpload ["Date", "From", "To", "Total F\\H"] [] = .error missingHeadersMsg ∧
      requiredHeaders.all (fun req => substringOf req.toList missingHeadersMsg.toList) = true :=
  c7_upload_rejected_on_missing_headers _ _ ⟨"Total Cyc", by decide, by decide⟩

/-- C8: a failed upload (decode error, missing headers, or the distinct
no-valid-data error) leaves the held state untouched; the record set and
statistics are replaced only together, after the whole computation
succeeded. -/
theorem c8_failed_upload_preserves_state (st : AppState) :
    (∀ e, handleFileUpload st (.error e) = st) ∧
      (∀ headers rows e, processUpload headers rows = .error e →
        handleFileUpload st (.ok (headers, rows)) = st) ∧
      (∀ headers rows recs stats, processUpload headers rows = .ok (recs, stats) →
        handleFileUpload st (.ok (headers, rows)) = ⟨recs, some stats⟩) ∧
      (∀ headers rows, requiredOk headers = true → normalizeRows headers rows = [] →
        processUpload headers rows = .error noValidDataMsg) ∧
      noValidDataMsg ≠ missingHeadersMsg := by
  refine ⟨fun e => rfl, ?_, ?_, ?_, by decide⟩
  · intro headers rows e h
    simp [handleFileUpload, h]
  · intro headers rows recs stats h
    simp [handleFileUpload, h]
  · intro headers rows h1 h2
    simp [processUpload, h1, h2]

/-- Witness for C8: a missing-header upload leaves a concrete state as it
was. -/
theorem c8_failed_upload_preserves_state_witness :
    handleFileUpload ⟨[], none⟩ (.ok (["Date"], [])) = ⟨[], none⟩ :=
  (c8_failed_upload_preserves_state ⟨[], none⟩).2.1 ["Date"] [] missingHeadersMsg rfl

/-- C10: every record leaving the normalizer's map step has a non-empty
serial (cell value or positional default), so the validity filter keeps a
record exactly when its date is non-empty. -/
theorem c10_normalizer_filters_only_on_date (rows : List Row) :
    processFlightData rows = (mapWithIndex 0 rows).filter (fun r => !(r.date == "")) ∧
      (mapWithIndex 0 rows).all (fun r => !(r.ser == "")) = true := by
  constructor
  · unfold processFlightData
    apply List.filter_congr
    intro r hr
    obtain ⟨j, row, -, rfl⟩ := mem_mapWithIndex hr
    have h1 : ((mkRecord j row).ser == "") = false :=
      beq_eq_false_iff_ne.mpr (mkRecord_ser_ne_empty j row)
    simp [h1]
  · rw [List.all_eq_true]
    intro r hr
    obtain ⟨j, row, -, rfl⟩ := mem_mapWithIndex hr
    simpa using mkRecord_ser_ne_empty j row

theorem mem_of_lookup_eq_some {α β : Type} [BEq α] [LawfulBEq α] {l : List (α × β)} {k : α} {b : β}
    (h : l.lookup k = some b) : (k, b) ∈ l := by
  obtain ⟨l₁, l₂, rfl, -⟩ := List.lookup_eq_some_iff.mp h
  exact List.mem_append_right _ (List.mem_cons_self _ _)

theorem rowCells_cell {row : Row} (h : rowCellsNoMinus row = true) {k s : String}
    (hg : getCell row k = some s) : cellNoMinus s = true := by
  unfold getCell at hg
  rcases hl : List.lookup k row with - | v <;> rw [hl] at hg
  · exact absurd hg (by simp)
  · have hmem := mem_of_lookup_eq_some hl
    have hv := List.all_eq_true.mp h _ hmem
    have hg2 : v = some s := hg
    rw [hg2] at hv
    simpa using hv

theorem whitespace_ne_minus {c : Char} (h : c.isWhitespace = true) : ¬(c = '-') := by
  unfold Char.isWhitespace at h
  simp only [Bool.or_eq_true, decide_eq_true_eq] at h
  rcases h with ((rfl | rfl) | rfl) | rfl <;> decide

theorem whitespace_not_alphanum {c : Char} (h : c.isWhitespace = true) :
    ¬(c.isAlphanum = true) := by
  unfold Char.isWhitespace at h
  simp only [Bool.or_eq_true, decide_eq_true_eq] at h
  rcases h with ((rfl | rfl) | rfl) | rfl <;> decide

theorem noEarlyMinus_dropWhile {l : List Char} (h : noEarlyMinus l = true) :
    ∀ rest, l.dropWhile Char.isWhitespace ≠ '-' :: rest := by
  induction l with
  | nil =>
    intro rest hc
    exact absurd hc (by simp)
  | cons c cs ih =>
    intro rest hc
    rw [List.dropWhile_cons] at hc
    split at hc
    · rename_i hw
      have hcs : noEarlyMinus cs = true := by
        rw [noEarlyMinus, if_neg (whitespace_ne_minus hw),
          if_neg (whitespace_not_alphanum hw)] at h
        exact h
      exact ih hcs rest hc
    · have hcm : c = '-' := (List.cons.inj hc).1
      rw [noEarlyMinus, if_pos hcm] at h
      exact absurd h (by decide)

theorem trimChars_cons {l : List Char} {c : Char} {rest : List Char}
    (h : trimChars l = c :: rest) :
    l.dropWhile Char.isWhitespace =
      c :: (rest ++
        ((l.dropWhile Char.isWhitespace).reverse.takeWhile Char.isWhitespace).reverse) := by
  unfold trimChars at h
  have h1 := List.takeWhile_append_dropWhile Char.isWhitespace
    (l.dropWhile Char.isWhitespace).reverse
  have h2 := congrArg List.reverse h1
  rw [List.reverse_append, List.reverse_reverse] at h2
  rw [h] at h2
  exact h2.symm

theorem parseIntJS_nonneg {s : String} (h : noEarlyMinus s.toList = true) {z : Int}
    (hz : parseIntJS s = some z) : 0 ≤ z := by
  unfold parseIntJS at hz
  dsimp only at hz
  split at hz
  · rename_i rest heq
    exact absurd heq (noEarlyMinus_dropWhile h rest)
  · obtain ⟨n, -, rfl⟩ := Option.map_eq_some'.mp hz
    exact Int.natCast_nonneg n
  · obtain ⟨n, -, rfl⟩ := Option.map_eq_some'.mp hz
    exact Int.natCast_nonneg n

theorem jsNumber_nonneg {s : String} (h : noEarlyMinus s.toList = true) {z : Int}
    (hz : jsNumber s = some z) : 0 ≤ z := by
  unfold jsNumber at hz
  dsimp only at hz
  split at hz
  · cases Option.some.inj hz
    exact le_refl 0
  · rename_i rest heq
    exact absurd (trimChars_cons heq) (noEarlyMinus_dropWhile h _)
  · split at hz
    · cases Option.some.inj hz
      exact Int.natCast_nonneg _
    · exact absurd hz (by simp)
  · split at hz
    · cases Option.some.inj hz
      exact Int.natCast_nonneg _
    · exact absurd hz (by simp)

theorem parseTimeString_nonneg {s : String}
    (h : (splitChar ':' s.toList).all (fun p => noEarlyMinus p) = true) :
    0 ≤ (parseTimeString s).1 ∧ 0 ≤ (parseTimeString s).2 := by
  unfold parseTimeString
  by_cases hs : s = ""
  · simp [hs]
  · rw [if_neg hs]
    dsimp only
    constructor
    · rcases hp : (splitChar ':' s.toList).head? with - | p
      · exact le_refl 0
      · show 0 ≤ (jsNumber (String.mk p)).getD 0
        obtain ⟨ys, hys⟩ := List.head?_eq_some_iff.mp hp
        have hpmem : p ∈ splitChar ':' s.toList := hys ▸ List.mem_cons_self p ys
        have hall : noEarlyMinus p = true := List.all_eq_true.mp h p hpmem
        rcases hn : jsNumber (String.mk p) with - | z
        · exact le_refl 0
        · exact jsNumber_nonneg hall hn
    · rcases hp : ((splitChar ':' s.toList).drop 1).head? with - | p
      · exact le_refl 0
      · show 0 ≤ (jsNumber (String.mk p)).getD 0
        obtain ⟨ys, hys⟩ := List.head?_eq_some_iff.mp hp
        have hpd : p ∈ (splitChar ':' s.toList).drop 1 := hys ▸ List.mem_cons_self p ys
        have hpmem : p ∈ splitChar ':' s.toList :=
          List.Sublist.mem hpd (List.drop_sublist 1 _)
        have hall : noEarlyMinus p = true := List.all_eq_true.mp h p hpmem
        rcases hn : jsNumber (String.mk p) with - | z
        · exact le_refl 0
        · exact jsNumber_nonneg hall hn

theorem cellOr_noEarlyMinus {row : Row} (h : rowCellsNoMinus row = true) (k : String) :
    noEarlyMinus (cellOr row k "0").toList = true := by
  unfold cellOr
  rcases hg : getCell row k with - | s <;> simp only [hg]
  · decide
  · by_cases hs : s = ""
    · simp only [if_pos hs]
      decide
    · simp only [if_neg hs]
      have hc := rowCells_cell h hg
      unfold cellNoMinus at hc
      rw [Bool.and_eq_true] at hc
      exact hc.1

theorem pInt_nonneg {row : Row} (h : rowCellsNoMinus row = true) (k : String) :
    0 ≤ pInt row k := by
  unfold pInt
  rcases hp : parseIntJS (cellOr row k "0") with - | z
  · exact le_refl 0
  · exact parseIntJS_nonneg (cellOr_noEarlyMinus h k) hp

theorem pInt_default {row : Row} {k : String} (h : cellFails row k) : pInt row k = 0 := by
  rcases h with h | h
  · have hc : cellOr row k "0" = "0" := by
      unfold cellOr
      rw [h]
    unfold pInt
    rw [hc]
    decide
  · unfold pInt
    rw [h]
    rfl

theorem mkRecord_fields_nonneg {row : Row} (h : rowCellsNoMinus row = true) (i : Nat) :
    0 ≤ (mkRecord i row).takeoffHours ∧ 0 ≤ (mkRecord i row).takeoffMinutes ∧
      0 ≤ (mkRecord i row).landingHours ∧ 0 ≤ (mkRecord i row).landingMinutes ∧
      0 ≤ (mkRecord i row).flightHours ∧ 0 ≤ (mkRecord i row).flightMinutes ∧
      0 ≤ (mkRecord i row).cycles ∧ 0 ≤ (mkRecord i row).totalFlightHours ∧
      0 ≤ (mkRecord i row).totalFlightMinutes ∧ 0 ≤ (mkRecord i row).totalCycles ∧
      0 ≤ (mkRecord i row).totalHours ∧ 0 ≤ (mkRecord i row).totalMinutes ∧
      0 ≤ (mkRecord i row).totalCyclesSum ∧ 0 ≤ (mkRecord i row).hoursPerMonth ∧
      0 ≤ (mkRecord i row).cyclesPerMonth := by
  have htf : 0 ≤ (mkRecord i row).totalFlightHours ∧
      0 ≤ (mkRecord i row).totalFlightMinutes := by
    show
      0 ≤ (if ':' ∈ ((getCell row "Total F\\H").getD "").toList then
            parseTimeString ((getCell row "Total F\\H").getD "")
          else (pInt row "TOTAL HRS", 0)).1 ∧
      0 ≤ (if ':' ∈ ((getCell row "Total F\\H").getD "").toList then
            parseTimeString ((getCell row "Total F\\H").getD "")
          else (pInt row "TOTAL HRS", 0)).2
    split
    · rename_i hcolon
      apply parseTimeString_nonneg
      rcases hg : getCell row "Total F\\H" with - | s
      · rw [hg] at hcolon
        exact absurd hcolon (by decide)
      · have hc := rowCells_cell h hg
        unfold cellNoMinus at hc
        rw [Bool.and_eq_true] at hc
        exact hc.2
    · exact ⟨pInt_nonneg h _, le_refl 0⟩
  exact ⟨pInt_nonneg h _, pInt_nonneg h _, pInt_nonneg h _, pInt_nonneg h _, pInt_nonneg h _,
    pInt_nonneg h _, pInt_nonneg h _, htf.1, htf.2, pInt_nonneg h _, pInt_nonneg h _,
    pInt_nonneg h _, pInt_nonneg h _, pInt_nonneg h _, pInt_nonneg h _⟩

/-- C4 fails as stated: a cell holding a negative integer parses to a
negative field (here `Cyc. = "-5"` gives `cycles = -5`), so not every
numeric field of a normalized record is non-negative. -/
theorem c4_negative_cell_gives_negative_field :
    ∃ r ∈ processFlightData [negCycRow], r.cycles < 0 :=
  ⟨mkRecord 0 negCycRow, by decide, by decide⟩

/-- C4 (amended): any cell that is absent or fails integer parsing yields
`0` in its numeric field (first and second conjunct, the second covering
the colon-component path), and every numeric field of every normalized
record is non-negative provided no cell — and no colon-separated
component of a cell — has a minus sign before its first alphanumeric
character (third conjunct; JavaScript `parseInt`/`Number` can produce a
negative value only when a minus sign is preceded by nothing but
whitespace, so such cells cannot parse negatively in the program
either). -/
theorem c4_numeric_fields_nonneg :
    (∀ (i : Nat) (row : Row),
        (cellFails row "T\\O hrs" → (mkRecord i row).takeoffHours = 0) ∧
        (cellFails row "T\\O min" → (mkRecord i row).takeoffMinutes = 0) ∧
        (cellFails row "Landing hrs" → (mkRecord i row).landingHours = 0) ∧
        (cellFails row "Landing min" → (mkRecord i row).landingMinutes = 0) ∧
        (cellFails row "F\\H hrs" → (mkRecord i row).flightHours = 0) ∧
        (cellFails row "F\\H min" → (mkRecord i row).flightMinutes = 0) ∧
        (cellFails row "Cyc." → (mkRecord i row).cycles = 0) ∧
        (cellFails row "Total Cyc" → (mkRecord i row).totalCycles = 0) ∧
        (cellFails row "TOTAL HRS" → (mkRecord i row).totalHours = 0) ∧
        (cellFails row "TOTAL MIN" → (mkRecord i row).totalMinutes = 0) ∧
        (cellFails row "TOTAL CYC" → (mkRecord i row).totalCyclesSum = 0) ∧
        (cellFails row "HRS/MOUNTH" → (mkRecord i row).hoursPerMonth = 0) ∧
        (cellFails row "CYC/MOUNTH" → (mkRecord i row).cyclesPerMonth = 0) ∧
        (getCell row "Total F\\H" = none → cellFails row "TOTAL HRS" →
          (mkRecord i row).totalFlightHours = 0 ∧ (mkRecord i row).totalFlightMinutes = 0)) ∧
    (∀ (s : String) (p : List Char),
        ((splitChar ':' s.toList).head? = some p → jsNumber (String.mk p) = none →
          (parseTimeString s).1 = 0) ∧
        (((splitChar ':' s.toList).drop 1).head? = some p → jsNumber (String.mk p) = none →
          (parseTimeString s).2 = 0)) ∧
    (∀ (rows : List Row), (∀ row ∈ rows, rowCellsNoMinus row = true) →
        ∀ r ∈ processFlightData rows,
          0 ≤ r.takeoffHours ∧ 0 ≤ r.takeoffMinutes ∧ 0 ≤ r.landingHours ∧
            0 ≤ r.landingMinutes ∧ 0 ≤ r.flightHours ∧ 0 ≤ r.flightMinutes ∧
            0 ≤ r.cycles ∧ 0 ≤ r.totalFlightHours ∧ 0 ≤ r.totalFlightMinutes ∧
            0 ≤ r.totalCycles ∧ 0 ≤ r.totalHours ∧ 0 ≤ r.totalMinutes ∧
            0 ≤ r.totalCyclesSum ∧ 0 ≤ r.hoursPerMonth ∧ 0 ≤ r.cyclesPerMonth) := by
  refine ⟨?_, ?_, ?_⟩
  · intro i row
    refine ⟨fun h => pInt_default h, fun h => pInt_default h, fun h => pInt_default h,
      fun h => pInt_default h, fun h => pInt_default h, fun h => pInt_default h,
      fun h => pInt_default h, fun h => pInt_default h, fun h => pInt_default h,
      fun h => pInt_default h, fun h => pInt_default h, fun h => pInt_default h,
      fun h => pInt_default h, ?_⟩
    intro h1 h2
    have hts : (getCell row "Total F\\H").getD "" = "" := by
      rw [h1]
      rfl
    constructor
    · show (if ':' ∈ ((getCell row "Total F\\H").getD "").toList then
          parseTimeString ((getCell row "Total F\\H").getD "")
        else (pInt row "TOTAL HRS", 0)).1 = 0
      rw [hts, if_neg (by decide)]
      exact pInt_default h2
    · show (if ':' ∈ ((getCell row "Total F\\H").getD "").toList then
          parseTimeString ((getCell row "Total F\\H").getD "")
        else (pInt row "TOTAL HRS", 0)).2 = 0
      rw [hts, if_neg (by decide)]
  · intro s p
    constructor
    · intro hp hn
      unfold parseTimeString
      by_cases hs : s = ""
      · rw [if_pos hs]
      · rw [if_neg hs]
        dsimp only
        rw [hp]
        show (jsNumber (String.mk p)).getD 0 = 0
        rw [hn]
        rfl
    · intro hp hn
      unfold parseTimeString
      by_cases hs : s = ""
      · rw [if_pos hs]
      · rw [if_neg hs]
        dsimp only
        rw [hp]
        show (jsNumber (String.mk p)).getD 0 = 0
        rw [hn]
        rfl
  · intro rows h r hr
    unfold processFlightData at hr
    have hr2 := List.Sublist.mem hr (List.filter_sublist _)
    obtain ⟨j, row, hrow, rfl⟩ := mem_mapWithIndex hr2
    exact mkRecord_fields_nonneg (h row hrow) j

/-- Witness for C4 (amended): a failing cycles cell yields `0`, a `NaN`
colon component yields `0`, and every field of a record from a concrete
minus-free row is non-negative. -/
theorem c4_numeric_fields_nonneg_witness :
    (mkRecord 0 failRow).cycles = 0 ∧ (parseTimeString "3:xx").2 = 0 ∧
      (0 ≤ (mkRecord 0 rawRowColon).takeoffHours ∧
        0 ≤ (mkRecord 0 rawRowColon).takeoffMinutes ∧
        0 ≤ (mkRecord 0 rawRowColon).landingHours ∧
        0 ≤ (mkRecord 0 rawRowColon).landingMinutes ∧
        0 ≤ (mkRecord 0 rawRowColon).flightHours ∧
        0 ≤ (mkRecord 0 rawRowColon).flightMinutes ∧
        0 ≤ (mkRecord 0 rawRowColon).cycles ∧
        0 ≤ (mkRecord 0 rawRowColon).totalFlightHours ∧
        0 ≤ (mkRecord 0 rawRowColon).totalFlightMinutes ∧
        0 ≤ (mkRecord 0 rawRowColon).totalCycles ∧
        0 ≤ (mkRecord 0 rawRowColon).totalHours ∧
        0 ≤ (mkRecord 0 rawRowColon).totalMinutes ∧
        0 ≤ (mkRecord 0 rawRowColon).totalCyclesSum ∧
        0 ≤ (mkRecord 0 rawRowColon).hoursPerMonth ∧
        0 ≤ (mkRecord 0 rawRowColon).cyclesPerMonth) :=
  ⟨(c4_numeric_fields_nonneg.1 0 failRow).2.2.2.2.2.2.1 (Or.inr (by decide)),
    (c4_numeric_fields_nonneg.2.1 "3:xx" ['x', 'x']).2 (by decide) (by decide),
    c4_numeric_fields_nonneg.2.2 [rawRowColon] (by decide) (mkRecord 0 rawRowColon) (by decide)⟩

/-! ### Digit round-trip machinery and `calculateStats` extraction -/

theorem digitVal_digitChar : ∀ d : Nat, d < 10 → digitVal (digitChar d) = d := by decide

theorem digitChar_isDigit : ∀ d : Nat, d < 10 → (digitChar d).isDigit = true := by decide

theorem parseNatList_digitsLEAux :
    ∀ (fuel n : Nat), n < fuel → parseNatList (digitsLEAux fuel n).reverse = n := by
  intro fuel
  induction fuel with
  | zero => intro n h; omega
  | succ fuel ih =>
    intro n h
    rw [digitsLEAux]
    by_cases h10 : n < 10
    · rw [if_pos h10]
      simp [parseNatList, digitVal_digitChar n h10]
    · rw [if_neg h10]
      rw [List.reverse_cons]
      unfold parseNatList
      rw [List.foldl_append]
      have hdiv : n / 10 < fuel := by
        have := Nat.div_lt_self (by omega : 0 < n) (by omega : 1 < 10)
        omega
      have ih2 := ih (n / 10) hdiv
      unfold parseNatList at ih2
      rw [ih2, List.foldl_cons, List.foldl_nil]
      rw [digitVal_digitChar (n % 10) (Nat.mod_lt n (by omega))]
      omega

theorem parseNatList_natDigits (n : Nat) : parseNatList (digitsLE n).reverse = n :=
  parseNatList_digitsLEAux (n + 1) n (Nat.lt_succ_self n)

theorem digitsLEAux_digit :
    ∀ (fuel n : Nat) (c : Char), c ∈ digitsLEAux fuel n → c.isDigit = true := by
  intro fuel
  induction fuel with
  | zero => intro n c hc; exact absurd hc (List.not_mem_nil c)
  | succ fuel ih =>
    intro n c hc
    rw [digitsLEAux] at hc
    by_cases h10 : n < 10
    · rw [if_pos h10] at hc
      rw [List.mem_singleton] at hc
      subst hc
      exact digitChar_isDigit n h10
    · rw [if_neg h10] at hc
      rcases List.mem_cons.mp hc with h1 | h2
      · subst h1
        exact digitChar_isDigit (n % 10) (Nat.mod_lt n (by omega))
      · exact ih (n / 10) c h2

theorem colon_not_mem_digits (n : Nat) : ':' ∉ (digitsLE n).reverse := by
  intro hm
  rw [List.mem_reverse] at hm
  have hd := digitsLEAux_digit (n + 1) n ':' hm
  exact absurd hd (by decide)

theorem splitAtFirstColon_append :
    ∀ {l1 l2 : List Char}, ':' ∉ l1 →
      splitAtFirstColon (l1 ++ ':' :: l2) = some (l1, l2)
  | [], l2, _ => by simp [splitAtFirstColon]
  | c :: cs, l2, h => by
    have hc : ¬(c = ':') := fun e => h (e ▸ List.mem_cons_self c cs)
    rw [List.cons_append, splitAtFirstColon, if_neg hc,
      splitAtFirstColon_append (fun m => h (List.mem_cons_of_mem c m))]
    rfl

theorem parseNatList_replicate_zero :
    ∀ (k : Nat) (l : List Char),
      parseNatList (List.replicate k '0' ++ l) = parseNatList l
  | 0, l => rfl
  | k + 1, l => by
    show parseNatList ('0' :: (List.replicate k '0' ++ l)) = parseNatList l
    unfold parseNatList
    rw [List.foldl_cons]
    exact parseNatList_replicate_zero k l

theorem toList_formatMinutesToTime (n : Nat) :
    (formatMinutesToTime n).toList =
      (digitsLE (n / 60)).reverse ++ ':' ::
        (List.replicate (2 - (natToString (n % 60)).length) '0' ++ (digitsLE (n % 60)).reverse) := by
  show ((digitsLE (n / 60)).reverse ++ [':']) ++
      (List.replicate (2 - (natToString (n % 60)).length) '0' ++ (digitsLE (n % 60)).reverse) = _
  rw [List.append_assoc]
  rfl

theorem parseTimeBack_format (n : Nat) : parseTimeBack (formatMinutesToTime n) = n := by
  unfold parseTimeBack
  rw [toList_formatMinutesToTime n]
  rw [splitAtFirstColon_append (colon_not_mem_digits (n / 60))]
  show parseNatList (digitsLE (n / 60)).reverse * 60 +
      parseNatList (List.replicate (2 - (natToString (n % 60)).length) '0' ++
        (digitsLE (n % 60)).reverse) = n
  rw [parseNatList_natDigits, parseNatList_replicate_zero, parseNatList_natDigits]
  omega

theorem foldl_add_eq_sum {α : Type} (f : α → Nat) :
    ∀ (l : List α) (a : Nat), l.foldl (fun s r => s + f r) a = a + (l.map f).sum
  | [], a => by simp
  | x :: xs, a => by
    rw [List.foldl_cons, foldl_add_eq_sum f xs]
    simp [Nat.add_assoc]

theorem calculateStats_ok_elim {data : List FlightRecord} {stats : FlightStats}
    (h : calculateStats data = .ok stats) :
    (data = [] ∧ stats = zeroStats) ∨
      (data ≠ [] ∧ ∃ monthly, buildMonthly data = .ok monthly ∧
        stats = mainStats data monthly) := by
  unfold calculateStats at h
  by_cases hne : data = []
  · rw [if_pos hne] at h
    exact Or.inl ⟨hne, (Except.ok.inj h).symm⟩
  · rw [if_neg hne] at h
    rcases hm : buildMonthly data with e | monthly <;> rw [hm] at h
    · exact absurd h (by simp)
    · exact Or.inr ⟨hne, monthly, rfl, (Except.ok.inj h).symm⟩

/-- C9: `formatTime` round-trips minute counts on the spec's examples,
and for every record sequence the aggregator accepts, parsing
`totalFlightTime` back recovers exactly the sum of `minutesOf` over all
records. -/
theorem c9_total_time_roundtrip :
    formatMinutesToTime 125 = "2:05" ∧ formatMinutesToTime 0 = "0:00" ∧
      formatMinutesToTime 59 = "0:59" ∧
      ∀ (data : List FlightRecord) (stats : FlightStats),
        calculateStats data = .ok stats →
          parseTimeBack stats.totalFlightTime = (data.map minutesOf).sum := by
  refine ⟨by decide, by decide, by decide, ?_⟩
  intro data stats h
  rcases calculateStats_ok_elim h with ⟨rfl, rfl⟩ | ⟨-, monthly, -, rfl⟩
  · decide
  · show parseTimeBack (formatMinutesToTime
        (data.foldl
          (fun s r => s + parseTimeToMinutes r.totalFlightHours r.totalFlightMinutes) 0)) =
      (data.map minutesOf).sum
    rw [parseTimeBack_format]
    exact (foldl_add_eq_sum minutesOf data 0).trans (Nat.zero_add _)

/-- Witness for C9 on two concrete records totalling 125 minutes. -/
theorem c9_total_time_roundtrip_witness :
    parseTimeBack "2:05" = (minuteRecords.map minutesOf).sum ∧
      (minuteRecords.map minutesOf).sum = 125 :=
  ⟨c9_total_time_roundtrip.2.2.2 minuteRecords
      { totalFlightTime := "2:05", totalCycles := 5, totalFlights := 2,
        averageFlightTime := "1:03", mostFrequentRoute := "A-B", totalDays := 1,
        averageFlightsPerDay := 200,
        monthlyStats := [("2024-01", ⟨125, 2, 5⟩)],
        routeStats := [("A-B", ⟨2, 125⟩)] } (by rfl),
    by decide⟩

/-! ### Day-span machinery (C6) -/

theorem foldl_max_mul {c : Int} (hc : (0 : Int) ≤ c) :
    ∀ (ts : List Int) (t : Int),
      (ts.map (fun x => x * c)).foldl max (t * c) = (ts.foldl max t) * c
  | [], _ => rfl
  | x :: xs, t => by
    rw [List.map_cons, List.foldl_cons, List.foldl_cons, ← max_mul_of_nonneg t x hc]
    exact foldl_max_mul hc xs (max t x)

theorem foldl_min_mul {c : Int} (hc : (0 : Int) ≤ c) :
    ∀ (ts : List Int) (t : Int),
      (ts.map (fun x => x * c)).foldl min (t * c) = (ts.foldl min t) * c
  | [], _ => rfl
  | x :: xs, t => by
    rw [List.map_cons, List.foldl_cons, List.foldl_cons, ← min_mul_of_nonneg t x hc]
    exact foldl_min_mul hc xs (min t x)

theorem jsCeilDiv_mul_cancel (k : Int) : jsCeilDiv (k * 86400000) 86400000 = k := by
  unfold jsCeilDiv
  rw [← Int.neg_mul, Int.mul_fdiv_cancel _ (by norm_num : (86400000 : Int) ≠ 0)]
  exact neg_neg k

theorem dates_eq_map (data : List FlightRecord) :
    data.filterMap (fun r => (parseCivil r.date).map epochMs) =
      (data.filterMap (fun r => (parseCivil r.date).map epochDay)).map
        (fun x => x * 86400000) := by
  rw [List.map_filterMap]
  congr 1
  funext r
  rw [Option.map_map]
  rfl

/-- C6: whenever the aggregator returns a `FlightStats`, its `totalDays`
is the spec's day-span formula: `(max(date) - min(date)) in days + 1`
over the records with a parseable date (whole days, so the code's
millisecond ceiling is exact), and `0` when no date parses. -/
theorem c6_totalDays_day_span (data : List FlightRecord) (stats : FlightStats)
    (h : calculateStats data = .ok stats) : stats.totalDays = totalDaysSpec data := by
  rcases calculateStats_ok_elim h with ⟨rfl, rfl⟩ | ⟨-, monthly, -, rfl⟩
  · rfl
  · show (match data.filterMap (fun r => (parseCivil r.date).map epochMs) with
      | [] => (0 : Int)
      | t :: ts => jsCeilDiv (ts.foldl max t - ts.foldl min t) 86400000 + 1) =
        totalDaysSpec data
    rw [dates_eq_map data]
    unfold totalDaysSpec
    rcases hd : data.filterMap (fun r => (parseCivil r.date).map epochDay) with - | ⟨t, ts⟩
    · rw [hd]
      rfl
    · rw [hd, List.map_cons]
      show jsCeilDiv ((ts.map (fun x => x * 86400000)).foldl max (t * 86400000) -
          (ts.map (fun x => x * 86400000)).foldl min (t * 86400000)) 86400000 + 1 =
        (ts.foldl max t - ts.foldl min t) + 1
      rw [foldl_max_mul (by norm_num) ts t, foldl_min_mul (by norm_num) ts t, ← sub_mul,
        jsCeilDiv_mul_cancel]

/-- Witness for C6: records dated 2024-01-01 and 2024-01-10 span 10 days. -/
theorem c6_totalDays_day_span_witness :
    (10 : Int) = totalDaysSpec spanRecords ∧ totalDaysSpec spanRecords = 10 :=
  ⟨c6_totalDays_day_span spanRecords
      { totalFlightTime := "2:00", totalCycles := 2, totalFlights := 2,
        averageFlightTime := "1:00", mostFrequentRoute := "A-B", totalDays := 10,
        averageFlightsPerDay := 20,
        monthlyStats := [("2024-01", ⟨120, 2, 2⟩)],
        routeStats := [("A-B", ⟨2, 120⟩)] } (by rfl),
    by decide⟩

/-! ### Stable-sort selection machinery (C5) -/

theorem find?_congr {α : Type} {p q : α → Bool} :
    ∀ {l : List α}, (∀ x ∈ l, p x = q x) → l.find? p = l.find? q
  | [], _ => rfl
  | x :: xs, h => by
    have hx := h x (List.mem_cons_self x xs)
    by_cases hp : p x = true
    · rw [List.find?_cons_of_pos xs hp, List.find?_cons_of_pos xs (hx ▸ hp)]
    · have hq : ¬(q x = true) := fun e => hp (hx ▸ e)
      rw [List.find?_cons_of_neg xs hp, List.find?_cons_of_neg xs hq]
      exact find?_congr (fun y hy => h y (List.mem_cons_of_mem x hy))

theorem insertSorted_length {α : Type} (le : α → α → Bool) (a : α) :
    ∀ l : List α, (insertSorted le a l).length = l.length + 1
  | [] => rfl
  | b :: bs => by
    rw [insertSorted]
    by_cases h : le a b = true
    · rw [if_pos h]
      rfl
    · rw [if_neg h]
      simp [insertSorted_length le a bs]

theorem jsSort_length {α : Type} (le : α → α → Bool) :
    ∀ l : List α, (jsSort le l).length = l.length
  | [] => rfl
  | a :: as => by
    rw [jsSort, insertSorted_length, jsSort_length le as]
    rfl

theorem jsSort_head_firstMax {α : Type} (le : α → α → Bool)
    (total : ∀ a b, le a b = true ∨ le b a = true)
    (trans : ∀ a b c, le a b = true → le b c = true → le a c = true) :
    ∀ l : List α, (jsSort le l).head? = l.find? (fun p => l.all (fun q => le p q))
  | [] => rfl
  | a :: as => by
    have hrefl : ∀ x : α, le x x = true := fun x => (total x x).elim id id
    rcases hs : jsSort le as with - | ⟨h0, t⟩
    · have hlen := jsSort_length le as
      rw [hs] at hlen
      have has : as = [] := List.length_eq_zero.mp (by simpa using hlen.symm)
      subst has
      show (insertSorted le a []).head? =
        List.find? (fun p => List.all [a] (fun q => le p q)) [a]
      rw [List.find?_cons_of_pos _ (by simp [hrefl a])]
      rfl
    · have ih := jsSort_head_firstMax le total trans as
      rw [hs] at ih
      have hfind : as.find? (fun p => as.all (fun q => le p q)) = some h0 := ih.symm
      have h0prop := List.find?_some hfind
      have h0all : ∀ q ∈ as, le h0 q = true := fun q hq => List.all_eq_true.mp h0prop q hq
      have h0mem : h0 ∈ as := List.mem_of_find?_eq_some hfind
      rw [jsSort, hs, insertSorted]
      by_cases hle : le a h0 = true
      · rw [if_pos hle]
        have hpa : (a :: as).all (fun q => le a q) = true := by
          rw [List.all_eq_true]
          intro q hq
          rcases List.mem_cons.mp hq with h1 | hq2
          · subst h1
            exact hrefl _
          · exact trans a h0 q hle (h0all q hq2)
        rw [List.find?_cons_of_pos _ (by exact hpa)]
        rfl
      · rw [if_neg hle]
        have hh0a : le h0 a = true := (total a h0).resolve_left hle
        have hnpa : ¬((a :: as).all (fun q => le a q) = true) := by
          intro hct
          exact hle (List.all_eq_true.mp hct h0 (List.mem_cons_of_mem a h0mem))
        rw [List.find?_cons_of_neg _ (by exact hnpa)]
        have hcong : as.find? (fun p => (a :: as).all (fun q => le p q)) =
            as.find? (fun p => as.all (fun q => le p q)) := by
          apply find?_congr
          intro p hp
          rw [List.all_cons]
          by_cases hpq : as.all (fun q => le p q) = true
          · have hph0 : le p h0 = true := List.all_eq_true.mp hpq h0 h0mem
            rw [trans p h0 a hph0 hh0a, hpq]
            rfl
          · rw [Bool.eq_false_iff.mpr hpq, Bool.and_false]
        rw [hcong, hfind]
        rfl

/-- C5: whenever the aggregator returns a `FlightStats` on a non-empty
record list, `mostFrequentRoute` is the first route key, in insertion
(first-seen) order, whose count no other route exceeds — highest count
wins and ties go to the earliest-seen route. -/
theorem c5_mostFrequentRoute_first_max (data : List FlightRecord) (stats : FlightStats)
    (hne : data ≠ []) (h : calculateStats data = .ok stats) :
    stats.mostFrequentRoute = (firstMaxRoute (buildRoutes data)).getD "N/A" := by
  rcases calculateStats_ok_elim h with ⟨he, -⟩ | ⟨-, monthly, -, rfl⟩
  · exact absurd he hne
  · show (((jsSort routeLe (buildRoutes data)).head?).map Prod.fst).getD "N/A" = _
    rw [jsSort_head_firstMax routeLe
      (by
        intro a b
        unfold routeLe
        rcases Nat.le_total b.2.count a.2.count with h1 | h1
        · exact Or.inl (by simpa using h1)
        · exact Or.inr (by simpa using h1))
      (by
        intro a b c hab hbc
        unfold routeLe at *
        simp only [decide_eq_true_eq] at *
        omega)
      (buildRoutes data)]
    rfl

/-- Witness for C5: the tied examples pick the first-seen route. -/
theorem c5_mostFrequentRoute_first_max_witness :
    "A-B" = (firstMaxRoute (buildRoutes tieAB)).getD "N/A" ∧
      (firstMaxRoute (buildRoutes tieCD)).getD "N/A" = "C-D" :=
  ⟨c5_mostFrequentRoute_first_max tieAB
      { totalFlightTime := "4:00", totalCycles := 4, totalFlights := 4,
        averageFlightTime := "1:00", mostFrequentRoute := "A-B", totalDays := 1,
        averageFlightsPerDay := 400,
        monthlyStats := [("2024-01", ⟨240, 4, 4⟩)],
        routeStats := [("A-B", ⟨2, 120⟩), ("C-D", ⟨2, 120⟩)] } (by decide) (by rfl),
    by decide⟩

end FlightApp
